import Mathlib

/-!
Verification of the blockchain RPC node simulator core.

This file shallowly embeds the per-chain clock driver, the subscription
broadcast engine, the fault-injection layer and the relevant request
handlers of the simulator, and proves or refutes the specification's
claims about them.  All heights are modelled as `Nat` with explicit
`% 2^64` where Go's `uint64` arithmetic can wrap; probabilities
(`float64` in the source) are modelled as `ℚ`, which is exact for the
comparison/accumulation logic of the fault injector.
-/

namespace RpcSim

/-- `2^64`, the modulus of Go's `uint64` arithmetic. -/
def U64 : Nat := 18446744073709551616

/-- Embedding of `ErrorConfig` (error_simulation, `type ErrorConfig`):
code, message, data, probability, optional method allow-list, delay. -/
structure ErrorConfig where
  code : Int
  message : String
  data : String := ""
  probability : ℚ
  methods : List String := []
  delayMs : Nat := 0
deriving Repr, DecidableEq

/-- Embedding of `type EVMChain` (chain definition file): latest, safe and
finalized block numbers, pause flag (`BlockIncrement`, 1 = paused),
interrupt flag (`BlockInterrupt`, 1 = interrupted), response timeout,
latency, deprecated scalar error probability, ordered error configs and
logs-per-block.  Durations are nanosecond counts. -/
structure EVMChain where
  name : String
  chainID : String
  blockNumber : Nat
  safeBlockNumber : Nat
  finalizedBlockNumber : Nat
  blockIncrement : Nat
  blockInterrupt : Nat
  responseTimeout : Nat
  latency : Nat
  errorProbability : ℚ
  errorConfigs : List ErrorConfig
  logsPerBlock : Nat
deriving Repr, DecidableEq

/-- Embedding of `type SolanaNode`: slot number, pause flag
(`SlotIncrement`), interrupt flag, timeout and latency. -/
structure SolanaNode where
  slotNumber : Nat
  slotIncrement : Nat
  blockInterrupt : Nat
  responseTimeout : Nat
  latency : Nat
deriving Repr, DecidableEq

/-- The ethereum chain as configured by `chains.yaml` and `init()`:
`BlockNumber = 1`, both flags clear, everything else zero/empty. -/
def initEthereum : EVMChain :=
  { name := "ethereum", chainID := "0x1", blockNumber := 1
    safeBlockNumber := 0, finalizedBlockNumber := 0
    blockIncrement := 0, blockInterrupt := 0
    responseTimeout := 0, latency := 0
    errorProbability := 0, errorConfigs := [], logsPerBlock := 5 }

/-- The Solana node after `init()`: `SlotNumber = 1`, flags clear. -/
def initSolana : SolanaNode :=
  { slotNumber := 1, slotIncrement := 0, blockInterrupt := 0
    responseTimeout := 0, latency := 0 }

/-- One tick of the per-chain clock driver (`main`, block incrementer
goroutine): if interrupted, skip; else if not paused, increment the
height (wrapping `uint64`), recompute safe = latest − 32 and
finalized = latest − 64 (clamped at 0), and emit one
`BroadcastNewBlock(chainId, newBlock)` call.  Returns the new state and
the height passed to the broadcast, if any. -/
def advanceEVM (c : EVMChain) : EVMChain × Option Nat :=
  if c.blockInterrupt = 1 then (c, none)
  else if c.blockIncrement = 0 then
    let newBlock := (c.blockNumber + 1) % U64
    let safe := if newBlock > 32 then newBlock - 32 else 0
    let fin := if newBlock > 64 then newBlock - 64 else 0
    ({ c with blockNumber := newBlock, safeBlockNumber := safe,
              finalizedBlockNumber := fin }, some newBlock)
  else (c, none)

/-- One tick of the Solana slot incrementer (`main`): if interrupted,
skip; else if not paused, increment the slot and emit one
`BroadcastNewBlock("501", newSlot)` call. -/
def advanceSolana (n : SolanaNode) : SolanaNode × Option Nat :=
  if n.blockInterrupt = 1 then (n, none)
  else if n.slotIncrement = 0 then
    let newSlot := (n.slotNumber + 1) % U64
    ({ n with slotNumber := newSlot }, some newSlot)
  else (n, none)

/-- `N` consecutive clock ticks of an EVM chain. -/
def iterateAdvanceEVM : Nat → EVMChain → EVMChain
  | 0, c => c
  | n + 1, c => iterateAdvanceEVM n (advanceEVM c).1

/-- `N` consecutive clock ticks of the Solana node. -/
def iterateAdvanceSolana : Nat → SolanaNode → SolanaNode
  | 0, s => s
  | n + 1, s => iterateAdvanceSolana n (advanceSolana s).1

lemma advanceEVM_flags (c : EVMChain) :
    (advanceEVM c).1.blockIncrement = c.blockIncrement ∧
    (advanceEVM c).1.blockInterrupt = c.blockInterrupt := by
  unfold advanceEVM
  split <;> [skip; split] <;> simp

lemma advanceEVM_step (c : EVMChain) (hi : c.blockInterrupt = 0)
    (hp : c.blockIncrement = 0) (hov : c.blockNumber + 1 < U64) :
    (advanceEVM c).1.blockNumber = c.blockNumber + 1 ∧
    (advanceEVM c).1.safeBlockNumber = c.blockNumber + 1 - 32 ∧
    (advanceEVM c).1.finalizedBlockNumber = c.blockNumber + 1 - 64 := by
  unfold advanceEVM
  rw [hi, hp]
  simp only [Nat.mod_eq_of_lt hov]
  refine ⟨by simp, ?_, ?_⟩ <;> simp <;> omega

lemma iterateAdvanceEVM_spec (N : Nat) (c : EVMChain)
    (hi : c.blockInterrupt = 0) (hp : c.blockIncrement = 0)
    (hov : c.blockNumber + N < U64) :
    (iterateAdvanceEVM N c).blockNumber = c.blockNumber + N ∧
    (1 ≤ N →
      (iterateAdvanceEVM N c).safeBlockNumber = c.blockNumber + N - 32 ∧
      (iterateAdvanceEVM N c).finalizedBlockNumber = c.blockNumber + N - 64) := by
  induction N generalizing c with
  | zero => simp [iterateAdvanceEVM]
  | succ n ih =>
    have hov1 : c.blockNumber + 1 < U64 := by omega
    obtain ⟨hb, hs, hf⟩ := advanceEVM_step c hi hp hov1
    obtain ⟨hinc, hint⟩ := advanceEVM_flags c
    have hov' : (advanceEVM c).1.blockNumber + n < U64 := by omega
    have hstep : iterateAdvanceEVM (n + 1) c =
        iterateAdvanceEVM n (advanceEVM c).1 := rfl
    have ihc := ih (advanceEVM c).1 (by rw [hint, hi]) (by rw [hinc, hp]) hov'
    rcases Nat.eq_zero_or_pos n with hn | hn
    · subst hn
      refine ⟨?_, fun _ => ⟨?_, ?_⟩⟩ <;> rw [hstep] <;>
        simp only [iterateAdvanceEVM] <;> omega
    · refine ⟨?_, fun _ => ⟨?_, ?_⟩⟩ <;> rw [hstep]
      · rw [ihc.1, hb]; omega
      · rw [(ihc.2 hn).1, hb]; omega
      · rw [(ihc.2 hn).2, hb]; omega

lemma advanceSolana_step (s : SolanaNode) (hi : s.blockInterrupt = 0)
    (hp : s.slotIncrement = 0) (hov : s.slotNumber + 1 < U64) :
    (advanceSolana s).1.slotNumber = s.slotNumber + 1 ∧
    (advanceSolana s).1.slotIncrement = s.slotIncrement ∧
    (advanceSolana s).1.blockInterrupt = s.blockInterrupt := by
  unfold advanceSolana
  rw [hi, hp]
  simp [Nat.mod_eq_of_lt hov]

lemma iterateAdvanceSolana_spec (N : Nat) (s : SolanaNode)
    (hi : s.blockInterrupt = 0) (hp : s.slotIncrement = 0)
    (hov : s.slotNumber + N < U64) :
    (iterateAdvanceSolana N s).slotNumber = s.slotNumber + N := by
  induction N generalizing s with
  | zero => simp [iterateAdvanceSolana]
  | succ n ih =>
    obtain ⟨hb, hinc, hint⟩ := advanceSolana_step s hi hp (by omega)
    simp only [iterateAdvanceSolana]
    rw [ih (advanceSolana s).1 (by rw [hint, hi]) (by rw [hinc, hp])
      (by omega), hb]
    omega

/-- C1: for all chains, after `N` clock ticks with the paused and
interrupted flags clear, the height is `initial + N`; for EVM chains the
safe height is `max 0 (height − 32)` and the finalized height is
`max 0 (height − 64)` (in `Nat`, truncated subtraction is exactly the
clamped formula).  `N ≥ 1` because the tick — not the initial
configuration — is what writes the safe/finalized registers. -/
theorem c1_clock_height_safe_finalized (c : EVMChain) (s : SolanaNode)
    (N M : Nat)
    (hci : c.blockInterrupt = 0) (hcp : c.blockIncrement = 0)
    (hsi : s.blockInterrupt = 0) (hsp : s.slotIncrement = 0)
    (hN : 1 ≤ N)
    (hcov : c.blockNumber + N < U64) (hsov : s.slotNumber + M < U64) :
    (iterateAdvanceEVM N c).blockNumber = c.blockNumber + N ∧
    (iterateAdvanceEVM N c).safeBlockNumber =
      (iterateAdvanceEVM N c).blockNumber - 32 ∧
    (iterateAdvanceEVM N c).finalizedBlockNumber =
      (iterateAdvanceEVM N c).blockNumber - 64 ∧
    (iterateAdvanceSolana M s).slotNumber = s.slotNumber + M := by
  obtain ⟨hb, hrest⟩ := iterateAdvanceEVM_spec N c hci hcp hcov
  obtain ⟨hs, hf⟩ := hrest hN
  exact ⟨hb, by rw [hb, hs], by rw [hb, hf],
    iterateAdvanceSolana_spec M s hsi hsp hsov⟩

/-- Witness for C1 at the configured initial states and `N = M = 70`. -/
theorem c1_clock_height_safe_finalized_witness :
    (iterateAdvanceEVM 70 initEthereum).blockNumber = 71 ∧
    (iterateAdvanceEVM 70 initEthereum).safeBlockNumber = 71 - 32 ∧
    (iterateAdvanceEVM 70 initEthereum).finalizedBlockNumber = 71 - 64 ∧
    (iterateAdvanceSolana 70 initSolana).slotNumber = 71 := by
  have h := c1_clock_height_safe_finalized initEthereum initSolana 70 70
    rfl rfl rfl rfl (by norm_num)
    (by show 1 + 70 < U64; norm_num [U64])
    (by show 1 + 70 < U64; norm_num [U64])
  have hb : initEthereum.blockNumber = 1 := rfl
  have hs : initSolana.slotNumber = 1 := rfl
  rw [hb, hs] at h
  exact ⟨h.1, by rw [h.2.1, h.1], by rw [h.2.2.1, h.1], h.2.2.2⟩

/-- `EVMChain.TriggerReorg` (chain methods file): if the current height is
below `blocks`, do nothing; else lower the height by `blocks` and call
`BroadcastNewBlock(c.ChainID, newHeight)` once.  Returns the new state
and the (chain key, height) of the emitted broadcast call, if any.
Safe/finalized are NOT recomputed. -/
def triggerReorgEVM (c : EVMChain) (blocks : Nat) : EVMChain × Option (String × Nat) :=
  if c.blockNumber < blocks then (c, none)
  else ({ c with blockNumber := c.blockNumber - blocks },
        some (c.chainID, c.blockNumber - blocks))

/-- `SolanaNode.TriggerReorg`: same shape, broadcasting under the fixed
chain key `"501"`. -/
def triggerReorgSolana (n : SolanaNode) (blocks : Nat) : SolanaNode × Option (String × Nat) :=
  if n.slotNumber < blocks then (n, none)
  else ({ n with slotNumber := n.slotNumber - blocks },
        some ("501", n.slotNumber - blocks))

/-- `handleSetBlock` (`/control/block/set`) for an EVM chain: store the
requested block number and broadcast it under the request's chain NAME.
Safe/finalized are NOT recomputed. -/
def setBlockEVM (c : EVMChain) (n : Nat) : EVMChain × (String × Nat) :=
  ({ c with blockNumber := n % U64 }, (c.name, n % U64))

/-- The administrative operations of the control surface that act on one
EVM chain's state, plus the clock tick.  Each constructor corresponds to
one control handler (`handleSetBlock`, `handlePauseBlock`,
`handleResumeBlock`, `handleInterruptBlocks`/`ResumeBlocks`,
`handleChainReorg`, `handleSetTimeout`/`ClearTimeout`,
`handleSetLatency`, `handleSetErrorProbability`,
`handleAddErrorConfig`/`ClearErrorConfigs`, `handleSetLogsPerBlock`). -/
inductive AdminOp where
  | tick
  | setBlock (n : Nat)
  | pause
  | resume
  | interrupt
  | resumeInterrupt
  | reorg (k : Nat)
  | setTimeout (d : Nat)
  | clearTimeout
  | setLatency (d : Nat)
  | setErrorProbability (p : ℚ)
  | addErrorConfig (e : ErrorConfig)
  | clearErrorConfigs
  | setLogsPerBlock (n : Nat)
deriving DecidableEq

/-- State effect of one operation on one EVM chain, as implemented by
the corresponding handler. -/
def applyOp (c : EVMChain) : AdminOp → EVMChain
  | .tick => (advanceEVM c).1
  | .setBlock n => (setBlockEVM c n).1
  | .pause => { c with blockIncrement := 1 }
  | .resume => { c with blockIncrement := 0 }
  | .interrupt => { c with blockInterrupt := 1 }
  | .resumeInterrupt => { c with blockInterrupt := 0 }
  | .reorg k => (triggerReorgEVM c k).1
  | .setTimeout d => { c with responseTimeout := d }
  | .clearTimeout => { c with responseTimeout := 0 }
  | .setLatency d => { c with latency := d }
  | .setErrorProbability p => { c with errorProbability := p }
  | .addErrorConfig e => { c with errorConfigs := c.errorConfigs ++ [e] }
  | .clearErrorConfigs => { c with errorConfigs := [] }
  | .setLogsPerBlock n => { c with logsPerBlock := n }

/-- Apply a sequence of operations left to right. -/
def applyOps (c : EVMChain) : List AdminOp → EVMChain
  | [] => c
  | op :: rest => applyOps (applyOp c op) rest

/-- The claimed per-chain invariant `finalized ≤ safe ≤ height`. -/
def heightInvariant (c : EVMChain) : Prop :=
  c.finalizedBlockNumber ≤ c.safeBlockNumber ∧
  c.safeBlockNumber ≤ c.blockNumber

instance (c : EVMChain) : Decidable (heightInvariant c) := by
  unfold heightInvariant; infer_instance

/-- Operations that overwrite the height without recomputing the
safe/finalized registers: the `/control/block/set` override and the
reorg. -/
def isHeightOverride : AdminOp → Bool
  | .setBlock _ => true
  | .reorg _ => true
  | _ => false

set_option maxRecDepth 4000 in
/-- C2 counterexample: the invariant `finalized ≤ safe ≤ height` is
violated by a reachable state that involves no reorg at all: 40 clock
ticks from the configured ethereum state (height 41, safe 9) followed by
the administrative `SetHeight 5`, which stores the new height but leaves
safe = 9 > 5 = height. -/
theorem c2_invariant_counterexample :
    ¬ heightInvariant
      (applyOps initEthereum
        (List.replicate 40 AdminOp.tick ++ [AdminOp.setBlock 5])) ∧
    (applyOps initEthereum
        (List.replicate 40 AdminOp.tick ++ [AdminOp.setBlock 5])).safeBlockNumber = 9 ∧
    (applyOps initEthereum
        (List.replicate 40 AdminOp.tick ++ [AdminOp.setBlock 5])).blockNumber = 5 := by
  refine ⟨?_, ?_, ?_⟩ <;> decide

lemma applyOp_invariant (c : EVMChain) (op : AdminOp)
    (hc : heightInvariant c) (hop : isHeightOverride op = false) :
    heightInvariant (applyOp c op) := by
  obtain ⟨h1, h2⟩ := hc
  cases op <;> simp_all [applyOp, isHeightOverride, heightInvariant]
  · unfold advanceEVM
    split
    · exact ⟨h1, h2⟩
    · split
      · constructor <;> dsimp only <;> (repeat' split) <;> omega
      · exact ⟨h1, h2⟩

/-- C2 amended: `finalized ≤ safe ≤ height` holds in every state
reachable from an invariant-satisfying state by clock ticks,
pause/resume, interrupt/resume and the administrative calls that do not
overwrite the height (`SetHeight` and reorg excluded: neither recomputes
safe/finalized, so both can break the invariant, as the counterexample
shows for `SetHeight`). -/
theorem c2_invariant_no_override (c : EVMChain) (ops : List AdminOp)
    (hc : heightInvariant c)
    (hops : ∀ op ∈ ops, isHeightOverride op = false) :
    heightInvariant (applyOps c ops) := by
  induction ops generalizing c with
  | nil => exact hc
  | cons op rest ih =>
    exact ih (applyOp c op)
      (applyOp_invariant c op hc (hops op (by simp)))
      (fun o ho => hops o (by simp [ho]))

/-- Witness for C2's amended theorem on a concrete mixed sequence. -/
theorem c2_invariant_no_override_witness :
    heightInvariant (applyOps initEthereum
      [AdminOp.tick, AdminOp.pause, AdminOp.resume, AdminOp.tick,
       AdminOp.interrupt, AdminOp.tick, AdminOp.resumeInterrupt,
       AdminOp.setTimeout 5, AdminOp.tick]) :=
  c2_invariant_no_override initEthereum _ (by decide) (by decide)

/-- A registered subscription (`type Subscription`): process-wide id,
chain key (`Type` in the source: the decimal chain id for EVM chains,
`"501"` for Solana), and notification kind (`Method`). -/
structure Subscription where
  id : Nat
  type : String
  method : String
deriving Repr, DecidableEq

/-- The notification kinds collected by `BroadcastNewBlock`'s snapshot
filter. -/
def heightEventMethods : List String :=
  ["newHeads", "newHeadsWithTx", "logs", "slotNotification", "rootNotification"]

/-- The chain keys of `BroadcastNewBlock`'s EVM switch case. -/
def evmBroadcastChainIds : List String :=
  ["1", "10", "56", "100", "130", "137", "146", "250", "324", "8217",
   "8453", "42161", "43114", "59144"]

/-- The height-carrying content of a notification built by
`BroadcastNewBlock` (hash/timestamp filler fields omitted): an EVM block
header (with or without synthesized transactions), a Solana slot
notification `{parent, root, slot}`, or a Solana root notification. -/
inductive Payload where
  | evmBlock (number : Nat) (withTx : Bool)
  | slot (parent root slot : Nat)
  | root (n : Nat)
deriving Repr, DecidableEq

/-- The notification `BroadcastNewBlock` builds for one snapshot entry,
or `none` when the entry is skipped: EVM chain keys always get a block
header (transactions added exactly for `newHeadsWithTx`); `"501"` gets a
slot notification for `slotNotification` subscriptions, a root
notification for `rootNotification` subscriptions only when
`root = blockNumber − 3 > 0`, and nothing for other kinds; unknown chain
keys get nothing (the source logs an unknown-chain warning). -/
def notificationFor (chain : String) (blockNumber : Nat)
    (sub : Subscription) : Option Payload :=
  if chain ∈ evmBroadcastChainIds then
    some (.evmBlock blockNumber (sub.method = "newHeadsWithTx"))
  else if chain = "501" then
    if sub.method = "slotNotification" then
      some (.slot ((blockNumber + U64 - 1) % U64)
        (if blockNumber > 3 then blockNumber - 3 else 0) blockNumber)
    else if sub.method = "rootNotification" then
      if blockNumber > 3 then some (.root (blockNumber - 3)) else none
    else none
  else none

/-- Insertion into a list sorted by ascending subscription id. -/
def insertById (s : Subscription) : List Subscription → List Subscription
  | [] => [s]
  | t :: ts => if s.id ≤ t.id then s :: t :: ts else t :: insertById s ts

/-- Sorting by ascending subscription id (`sort.Slice(subs, by ID)`):
ids are unique map keys, so any comparison sort yields this result. -/
def sortById : List Subscription → List Subscription
  | [] => []
  | s :: ss => insertById s (sortById ss)

/-- `SubscriptionManager.BroadcastNewBlock(chain, blockNumber)` over a
registry snapshot `subs`: filter the subscriptions of that chain whose
kind is in the height-event set, sort by ascending id, then deliver one
notification per entry (skipping entries whose notification is `none`).
Returns the ordered list of sink writes as (subscription id, payload). -/
def broadcastNewBlock (subs : List Subscription) (chain : String)
    (blockNumber : Nat) : List (Nat × Payload) :=
  let matched := subs.filter
    (fun s => s.type = chain ∧ s.method ∈ heightEventMethods)
  (sortById matched).filterMap
    (fun s => (notificationFor chain blockNumber s).map (fun p => (s.id, p)))

/-- C3, code evaluated at the failing input: the ethereum chain
(display ChainID `"0x1"`) at height 100 with one `newHeads`
subscription registered under the decimal chain key `"1"`.
`TriggerReorg 10` lowers the height to 90 and emits the broadcast under
`"0x1"` — which matches no subscription, so the reorg delivers nothing,
while the same height broadcast under the tick's decimal key `"1"`
would reach the subscriber.  The Solana side, broadcasting under
`"501"`, does deliver. -/
theorem c3_reorg_broadcast_key_mismatch :
    (triggerReorgEVM { initEthereum with blockNumber := 100 } 10).1.blockNumber = 90 ∧
    (triggerReorgEVM { initEthereum with blockNumber := 100 } 10).2 =
      some ("0x1", 90) ∧
    broadcastNewBlock [⟨1, "1", "newHeads"⟩] "0x1" 90 = [] ∧
    broadcastNewBlock [⟨1, "1", "newHeads"⟩] "1" 90 =
      [(1, .evmBlock 90 false)] ∧
    (triggerReorgEVM { initEthereum with blockNumber := 100 } 150).1 =
      { initEthereum with blockNumber := 100 } ∧
    (triggerReorgEVM { initEthereum with blockNumber := 100 } 150).2 = none ∧
    (triggerReorgSolana { initSolana with slotNumber := 100 } 10).1.slotNumber = 90 ∧
    broadcastNewBlock [⟨2, "501", "slotNotification"⟩] "501" 90 =
      [(2, .slot 89 87 90)] := by
  refine ⟨?_, ?_, ?_, ?_, ?_, ?_, ?_, ?_⟩ <;> decide

/-- C4 counterexample: a `rootNotification` subscription is a
height-event kind (it is in `BroadcastNewBlock`'s snapshot filter), yet
a broadcast at height 2 on the Solana chain delivers nothing to it,
because the root `max(0, 2−3) = 0` suppresses the notification — not
exactly one notification per matching subscription. -/
theorem c4_root_subscription_zero_notifications :
    ("rootNotification" ∈ heightEventMethods) ∧
    broadcastNewBlock [⟨1, "501", "rootNotification"⟩] "501" 2 = [] := by
  exact ⟨by decide, by decide⟩

lemma insertById_perm (s : Subscription) (l : List Subscription) :
    (insertById s l).Perm (s :: l) := by
  induction l with
  | nil => rfl
  | cons t ts ih =>
    unfold insertById
    split
    · rfl
    · exact (ih.cons t).trans (List.Perm.swap s t ts)

lemma sortById_perm (l : List Subscription) : (sortById l).Perm l := by
  induction l with
  | nil => rfl
  | cons s ss ih => exact (insertById_perm s (sortById ss)).trans (ih.cons s)

lemma insertById_sorted (s : Subscription) (l : List Subscription)
    (h : l.Pairwise (fun a b => a.id ≤ b.id)) :
    (insertById s l).Pairwise (fun a b => a.id ≤ b.id) := by
  induction l with
  | nil => simp [insertById]
  | cons t ts ih =>
    rw [List.pairwise_cons] at h
    obtain ⟨ht, hts⟩ := h
    unfold insertById
    split
    · rename_i hle
      refine List.Pairwise.cons ?_ (List.Pairwise.cons ht hts)
      intro b hb
      rcases List.mem_cons.1 hb with rfl | hb
      · exact hle
      · exact le_trans hle (ht b hb)
    · rename_i hgt
      refine List.Pairwise.cons ?_ (ih hts)
      intro b hb
      rcases List.mem_cons.1 ((insertById_perm s ts).mem_iff.1 hb) with rfl | hb
      · omega
      · exact ht b hb

lemma sortById_sorted (l : List Subscription) :
    (sortById l).Pairwise (fun a b => a.id ≤ b.id) := by
  induction l with
  | nil => simp [sortById]
  | cons s ss ih => exact insertById_sorted s (sortById ss) ih

lemma countP_filterMap {α β : Type} (f : α → Option β) (p : β → Bool)
    (l : List α) :
    (l.filterMap f).countP p =
      l.countP (fun a => ((f a).map p).getD false) := by
  induction l with
  | nil => rfl
  | cons a rest ih =>
    rcases hfa : f a with _ | b <;>
      simp [List.filterMap_cons, hfa, List.countP_cons, ih]

lemma countP_eq_single {α : Type} (l : List α) (s : α) (q : α → Bool)
    (hnd : l.Nodup) (hs : s ∈ l) (hq : ∀ t ∈ l, q t = true → t = s) :
    l.countP q = if q s then 1 else 0 := by
  induction l with
  | nil => cases hs
  | cons a rest ih =>
    rw [List.nodup_cons] at hnd
    rcases List.mem_cons.1 hs with rfl | hs'
    · have hrest : rest.countP q = 0 := by
        rw [List.countP_eq_zero]
        intro t ht hqt
        exact hnd.1 ((hq t (List.mem_cons_of_mem _ ht) hqt) ▸ ht)
      rw [List.countP_cons, hrest]
      split <;> simp_all
    · have hqa : q a = false := by
        by_contra h
        have := hq a (List.mem_cons_self a rest)
          (by revert h; cases q a <;> simp)
        exact hnd.1 (this ▸ hs')
      rw [List.countP_cons, hqa,
        ih hnd.2 hs' (fun t ht => hq t (List.mem_cons_of_mem _ ht))]
      simp

/-- The ids of the sink writes of one `BroadcastNewBlock` call. -/
lemma broadcast_ids (subs : List Subscription) (chain : String) (bn : Nat) :
    (broadcastNewBlock subs chain bn).map Prod.fst =
      (sortById (subs.filter
        (fun s => s.type = chain ∧ s.method ∈ heightEventMethods))).filterMap
        (fun s => (notificationFor chain bn s).map (fun _ => s.id)) := by
  unfold broadcastNewBlock
  rw [List.map_filterMap]
  congr 1
  funext s
  rcases notificationFor chain bn s with _ | p <;> rfl

lemma broadcast_ids_strict_mono (subs : List Subscription) (chain : String)
    (bn : Nat) (hnd : (subs.map Subscription.id).Nodup) :
    ((broadcastNewBlock subs chain bn).map Prod.fst).Pairwise (· < ·) := by
  rw [broadcast_ids]
  set matched := subs.filter
    (fun s => s.type = chain ∧ s.method ∈ heightEventMethods) with hm
  have hsubnd : (matched.map Subscription.id).Nodup :=
    ((List.filter_sublist subs).map Subscription.id).nodup hnd
  have hpermnd : ((sortById matched).map Subscription.id).Nodup :=
    (((sortById_perm matched).map Subscription.id).nodup_iff).2 hsubnd
  have hne : (sortById matched).Pairwise (fun a b => a.id ≠ b.id) :=
    (List.pairwise_map).1 hpermnd
  have hlt : (sortById matched).Pairwise (fun a b => a.id < b.id) :=
    ((sortById_sorted matched).and hne).imp
      (fun h => lt_of_le_of_ne h.1 h.2)
  rw [List.pairwise_filterMap]
  refine hlt.imp ?_
  intro a b hab x hx y hy
  simp_all

/-- How many sink writes of one broadcast carry a given subscription's
id: one if the snapshot entry produces a notification, zero if it is
skipped. -/
lemma broadcast_count (subs : List Subscription) (chain : String) (bn : Nat)
    (hnd : (subs.map Subscription.id).Nodup) (s : Subscription)
    (hs : s ∈ subs) (htype : s.type = chain)
    (hmeth : s.method ∈ heightEventMethods) :
    (broadcastNewBlock subs chain bn).countP (fun d => d.1 == s.id) =
      if (notificationFor chain bn s).isSome then 1 else 0 := by
  have hmap : (broadcastNewBlock subs chain bn).countP (fun d => d.1 == s.id) =
      ((broadcastNewBlock subs chain bn).map Prod.fst).countP
        (fun i => i == s.id) := by
    rw [List.countP_map]; rfl
  rw [hmap, broadcast_ids]
  set matched := subs.filter
    (fun s => s.type = chain ∧ s.method ∈ heightEventMethods) with hm
  rw [countP_filterMap]
  have hperm : (sortById matched).Perm matched := sortById_perm matched
  rw [hperm.countP_eq]
  have hsm : s ∈ matched := by
    rw [hm, List.mem_filter]
    exact ⟨hs, by simp [htype, hmeth]⟩
  have hmnd : matched.Nodup :=
    ((List.filter_sublist subs).nodup (hnd.of_map))
  have hinj : ∀ t ∈ subs, ∀ u ∈ subs, t.id = u.id → t = u :=
    fun t ht u hu h => List.inj_on_of_nodup_map hnd ht hu h
  have hq : ∀ t ∈ matched,
      ((((notificationFor chain bn t).map (fun _ => t.id)).map
        (fun i => i == s.id)).getD false) = true → t = s := by
    intro t ht hqt
    refine hinj t (List.mem_of_mem_filter ht) s hs ?_
    rcases hn : notificationFor chain bn t with _ | p <;>
      rw [hn] at hqt <;> simp_all
  rw [countP_eq_single matched s _ hmnd hsm hq]
  rcases hn : notificationFor chain bn s with _ | p <;> simp [hn]

/-- C4 amended: for every `BroadcastNewBlock` call over a registry
snapshot with unique subscription ids, the sink writes are in strictly
ascending subscription-id order, and each matching subscription (same
chain key, height-event kind) receives exactly one notification — with
the exception that on the Solana chain a `rootNotification` subscription
receives one notification when the height exceeds 3 and none otherwise
(root 0 suppressed), and kinds outside the Solana vocabulary receive
none there. -/
theorem c4_broadcast_order_and_exactly_once (subs : List Subscription)
    (chain : String) (bn : Nat)
    (hnd : (subs.map Subscription.id).Nodup) :
    ((broadcastNewBlock subs chain bn).map Prod.fst).Pairwise (· < ·) ∧
    (chain ∈ evmBroadcastChainIds →
      ∀ s ∈ subs, s.type = chain → s.method ∈ heightEventMethods →
        (broadcastNewBlock subs chain bn).countP (fun d => d.1 == s.id) = 1) ∧
    (chain = "501" →
      ∀ s ∈ subs, s.type = chain →
        (s.method = "slotNotification" →
          (broadcastNewBlock subs chain bn).countP (fun d => d.1 == s.id) = 1) ∧
        (s.method = "rootNotification" →
          (broadcastNewBlock subs chain bn).countP (fun d => d.1 == s.id) =
            if bn > 3 then 1 else 0)) := by
  refine ⟨broadcast_ids_strict_mono subs chain bn hnd, ?_, ?_⟩
  · intro hevm s hs htype hmeth
    rw [broadcast_count subs chain bn hnd s hs htype hmeth]
    simp [notificationFor, hevm]
  · intro h501 s hs htype
    subst h501
    have hnotevm : ("501" ∈ evmBroadcastChainIds) = False := by decide
    constructor
    · intro hmeth
      rw [broadcast_count subs "501" bn hnd s hs htype
        (by rw [hmeth]; decide)]
      simp [notificationFor, hnotevm, hmeth]
    · intro hmeth
      rw [broadcast_count subs "501" bn hnd s hs htype
        (by rw [hmeth]; decide)]
      have hmeth' : (s.method = "slotNotification") = False := by
        simp [hmeth]
      by_cases hbn : bn > 3 <;>
        simp [notificationFor, hnotevm, hmeth, hmeth', hbn]

/-- Witness for C4's amended theorem on a concrete snapshot. -/
theorem c4_broadcast_order_and_exactly_once_witness :
    (((broadcastNewBlock
        [⟨3, "1", "logs"⟩, ⟨1, "1", "newHeads"⟩, ⟨2, "501", "slotNotification"⟩]
        "1" 90).map Prod.fst).Pairwise (· < ·)) ∧
    (broadcastNewBlock
        [⟨3, "1", "logs"⟩, ⟨1, "1", "newHeads"⟩, ⟨2, "501", "slotNotification"⟩]
        "1" 90).countP (fun d => d.1 == 1) = 1 := by
  have h := c4_broadcast_order_and_exactly_once
    [⟨3, "1", "logs"⟩, ⟨1, "1", "newHeads"⟩, ⟨2, "501", "slotNotification"⟩]
    "1" 90 (by decide)
  exact ⟨h.1, h.2.1 (by decide) ⟨1, "1", "newHeads"⟩ (by decide) rfl (by decide)⟩

/-- The entries of an error-config list that apply to a method
(`ShouldSimulateError`, applicability filter): an entry applies when its
method list is empty or contains the method. -/
def applicableErrors (errorConfigs : List ErrorConfig) (method : String) :
    List ErrorConfig :=
  errorConfigs.filter (fun e => e.methods.isEmpty || e.methods.contains method)

/-- The total probability mass of a list of entries. -/
def totalProbability (l : List ErrorConfig) : ℚ :=
  (l.map (fun e => e.probability)).sum

/-- The cumulative-walk loop of `ShouldSimulateError`: accumulate the
probabilities in configuration order and return the first entry whose
cumulative sum reaches the roll. -/
def selectByCumulative (roll : ℚ) : List ErrorConfig → ℚ → Option ErrorConfig
  | [], _ => none
  | e :: rest, cumulative =>
    if roll ≤ cumulative + e.probability then some e
    else selectByCumulative roll rest (cumulative + e.probability)

/-- `ShouldSimulateError(errorConfigs, method)` with the uniform
`rand.Float64()` draw made an explicit `roll` parameter: empty list →
no error; no applicable entry → no error; total probability 0 → no
error; roll above the total → no error; otherwise the cumulative walk,
with the source's defensive fallback to the last applicable entry. -/
def shouldSimulateError (errorConfigs : List ErrorConfig) (method : String)
    (roll : ℚ) : Option ErrorConfig :=
  if errorConfigs.isEmpty then none
  else
    let app := applicableErrors errorConfigs method
    if app.isEmpty then none
    else
      let totalProb := totalProbability app
      if totalProb = 0 then none
      else if roll > totalProb then none
      else
        match selectByCumulative roll app 0 with
        | some e => some e
        | none =>
          if app.isEmpty = false ∧ roll ≤ totalProb then app.getLast?
          else none

/-- A configured error with probability 0 (legal input: the control
surface only checks `0 ≤ p ≤ 1`). -/
def zeroProbError : ErrorConfig :=
  { code := -32000, message := "boom", probability := 0 }

/-- C5 counterexample: with one applicable entry of probability 0 and
roll 0, the roll is not above the total `S = 0`, and the first
applicable entry's cumulative sum `0 ≥ roll` — the claim selects the
first entry — but the code's `totalProb == 0` guard returns no error. -/
theorem c5_zero_total_counterexample :
    shouldSimulateError [zeroProbError] "eth_call" 0 = none ∧
    ¬ ((0 : ℚ) > totalProbability (applicableErrors [zeroProbError] "eth_call")) ∧
    selectByCumulative 0 (applicableErrors [zeroProbError] "eth_call") 0 =
      some zeroProbError := by
  refine ⟨?_, ?_, ?_⟩ <;>
    norm_num [shouldSimulateError, applicableErrors, totalProbability,
      selectByCumulative, zeroProbError]

lemma selectByCumulative_isSome (roll : ℚ) (l : List ErrorConfig) (c : ℚ)
    (hne : l ≠ []) (hle : roll ≤ c + totalProbability l) :
    (selectByCumulative roll l c).isSome := by
  induction l generalizing c with
  | nil => exact absurd rfl hne
  | cons e rest ih =>
    unfold selectByCumulative
    split
    · rfl
    · rename_i hgt
      rcases rest with _ | ⟨f, rest'⟩
      · exact absurd (by simpa [totalProbability] using hle) hgt
      · refine ih (c + e.probability) (by simp) ?_
        have : totalProbability (e :: f :: rest') =
            e.probability + totalProbability (f :: rest') := by
          simp [totalProbability]
        rw [this] at hle
        linarith

/-- C5 amended: with `S` the total probability of the applicable
entries, a roll above `S` yields no error, a zero total yields no error
regardless of the roll, and otherwise (`S ≠ 0`, `roll ≤ S`) the result
is exactly the cumulative walk — the first applicable entry, in
configuration order, whose cumulative probability sum reaches the roll —
and that walk always finds an entry, so the source's defensive fallback
branch is unreachable there. -/
theorem c5_error_selection (errorConfigs : List ErrorConfig)
    (method : String) (roll : ℚ) :
    (totalProbability (applicableErrors errorConfigs method) = 0 →
      shouldSimulateError errorConfigs method roll = none) ∧
    (roll > totalProbability (applicableErrors errorConfigs method) →
      shouldSimulateError errorConfigs method roll = none) ∧
    (totalProbability (applicableErrors errorConfigs method) ≠ 0 →
      roll ≤ totalProbability (applicableErrors errorConfigs method) →
      shouldSimulateError errorConfigs method roll =
        selectByCumulative roll (applicableErrors errorConfigs method) 0 ∧
      (selectByCumulative roll
        (applicableErrors errorConfigs method) 0).isSome) := by
  refine ⟨?_, ?_, ?_⟩
  · intro h0
    by_cases hc : errorConfigs.isEmpty
    · simp [shouldSimulateError, hc]
    · by_cases ha : (applicableErrors errorConfigs method).isEmpty
      · simp [shouldSimulateError, hc, ha]
      · simp [shouldSimulateError, hc, ha, h0]
  · intro hroll
    by_cases hc : errorConfigs.isEmpty
    · simp [shouldSimulateError, hc]
    · by_cases ha : (applicableErrors errorConfigs method).isEmpty
      · simp [shouldSimulateError, hc, ha]
      · by_cases h0 : totalProbability (applicableErrors errorConfigs method) = 0
        · simp [shouldSimulateError, hc, ha, h0]
        · simp [shouldSimulateError, hc, ha, h0, hroll]
  · intro h0 hroll
    have happ : applicableErrors errorConfigs method ≠ [] := by
      intro h
      exact h0 (by simp [h, totalProbability])
    have hcfg : errorConfigs.isEmpty = false := by
      rcases hc : errorConfigs with _ | ⟨e, rest⟩
      · exact absurd (by simp [applicableErrors, hc]) happ
      · rfl
    have ha : (applicableErrors errorConfigs method).isEmpty = false := by
      rcases h : applicableErrors errorConfigs method with _ | ⟨e, rest⟩
      · exact absurd h happ
      · rfl
    have hsome := selectByCumulative_isSome roll
      (applicableErrors errorConfigs method) 0 happ (by linarith)
    have hnotgt : ¬ (roll > totalProbability
        (applicableErrors errorConfigs method)) := not_lt.2 hroll
    refine ⟨?_, hsome⟩
    simp only [shouldSimulateError, hcfg, ha, Bool.false_eq_true, if_false,
      if_neg h0, if_neg hnotgt]
    rcases hsel : selectByCumulative roll
        (applicableErrors errorConfigs method) 0 with _ | e
    · rw [hsel] at hsome; cases hsome
    · rfl

/-- Witness for C5's amended theorem: the two 0.3-entries example from
the spec — roll 0.9 → no error, roll 0.2 → first entry, roll 0.5 →
second entry. -/
theorem c5_error_selection_witness :
    shouldSimulateError
      [{ code := -32000, message := "err A", probability := 3/10,
         methods := ["eth_call"] },
       { code := -32001, message := "err B", probability := 3/10,
         methods := ["eth_call"] }] "eth_call" (9/10) = none ∧
    shouldSimulateError
      [{ code := -32000, message := "err A", probability := 3/10,
         methods := ["eth_call"] },
       { code := -32001, message := "err B", probability := 3/10,
         methods := ["eth_call"] }] "eth_call" (2/10) =
      some { code := -32000, message := "err A", probability := 3/10,
             methods := ["eth_call"] } ∧
    shouldSimulateError
      [{ code := -32000, message := "err A", probability := 3/10,
         methods := ["eth_call"] },
       { code := -32001, message := "err B", probability := 3/10,
         methods := ["eth_call"] }] "eth_call" (5/10) =
      some { code := -32001, message := "err B", probability := 3/10,
             methods := ["eth_call"] } := by
  refine ⟨?_, ?_, ?_⟩
  · exact (c5_error_selection _ "eth_call" (9/10)).2.1
      (by norm_num [applicableErrors, totalProbability])
  · rw [((c5_error_selection _ "eth_call" (2/10)).2.2
      (by norm_num [applicableErrors, totalProbability])
      (by norm_num [applicableErrors, totalProbability])).1]
    norm_num [applicableErrors, selectByCumulative]
  · rw [((c5_error_selection _ "eth_call" (5/10)).2.2
      (by norm_num [applicableErrors, totalProbability])
      (by norm_num [applicableErrors, totalProbability])).1]
    norm_num [applicableErrors, selectByCumulative]

/-- The fault-injection prefix of `handleEVMRequest` (after envelope
validation): first the deprecated scalar — if `ErrorProbability > 0` and
an independent uniform draw falls below it, return the fixed
`-32000 "header not found"` — then the configured error simulation. -/
def evmFaultInjection (c : EVMChain) (method : String)
    (legacyRoll roll : ℚ) : Option (Int × String) :=
  if 0 < c.errorProbability ∧ legacyRoll < c.errorProbability then
    some (-32000, "header not found")
  else
    (shouldSimulateError c.errorConfigs method roll).map
      (fun e => (e.code, e.message))

/-- C6 counterexample: a chain with scalar probability 1 and a NON-empty
ErrorConfig list still short-circuits on the scalar — the deprecated
scalar is not disabled by a non-empty list. -/
theorem c6_legacy_scalar_counterexample :
    ({ initEthereum with
        errorProbability := 1
        errorConfigs := [zeroProbError] } : EVMChain).errorConfigs ≠ [] ∧
    evmFaultInjection
      { initEthereum with
        errorProbability := 1
        errorConfigs := [zeroProbError] } "eth_call" (1/2) (1/2) =
      some (-32000, "header not found") := by
  refine ⟨by simp, ?_⟩
  norm_num [evmFaultInjection]

/-- C6 amended: the deprecated scalar fires as an independent Bernoulli
trial on every request, before and regardless of the ErrorConfig list
(empty or not); only when the scalar does not fire does the configured
list decide the outcome. -/
theorem c6_legacy_scalar_independent (c : EVMChain) (method : String)
    (legacyRoll roll : ℚ) :
    (0 < c.errorProbability → legacyRoll < c.errorProbability →
      evmFaultInjection c method legacyRoll roll =
        some (-32000, "header not found")) ∧
    (¬ (0 < c.errorProbability ∧ legacyRoll < c.errorProbability) →
      evmFaultInjection c method legacyRoll roll =
        (shouldSimulateError c.errorConfigs method roll).map
          (fun e => (e.code, e.message))) := by
  constructor
  · intro hp hr
    unfold evmFaultInjection
    rw [if_pos ⟨hp, hr⟩]
  · intro h
    unfold evmFaultInjection
    rw [if_neg h]

/-- Witness for C6's amended theorem at a concrete chain state. -/
theorem c6_legacy_scalar_independent_witness :
    evmFaultInjection
      { initEthereum with
        errorProbability := 1
        errorConfigs := [zeroProbError] } "eth_call" (1/4) (1/4) =
      some (-32000, "header not found") :=
  (c6_legacy_scalar_independent
    { initEthereum with
      errorProbability := 1
      errorConfigs := [zeroProbError] } "eth_call" (1/4) (1/4)).1
    (by norm_num) (by norm_num)

/-- Digit decoding of Go's `strconv.ParseUint`: `0-9`, then `a-z` and
`A-Z` as 10–35; anything else is a syntax error.  Digits not below the
base are rejected by the caller. -/
def digitVal (ch : Char) : Option Nat :=
  if '0' ≤ ch ∧ ch ≤ '9' then some (ch.toNat - 48)
  else if 'a' ≤ ch ∧ ch ≤ 'z' then some (ch.toNat - 97 + 10)
  else if 'A' ≤ ch ∧ ch ≤ 'Z' then some (ch.toNat - 65 + 10)
  else none

/-- The accumulation loop of `strconv.ParseUint`. -/
def parseLoop (base : Nat) : Nat → List Char → Option Nat
  | acc, [] => some acc
  | acc, ch :: rest =>
    match digitVal ch with
    | some d => if d < base then parseLoop base (acc * base + d) rest else none
    | none => none

/-- `strconv.ParseUint(s, base, 64)`: empty string → error; any
non-digit or digit ≥ base → error; value not fitting 64 bits → range
error. -/
def parseUint (base : Nat) (s : String) : Option Nat :=
  match s.toList with
  | [] => none
  | c :: rest =>
    match parseLoop base 0 (c :: rest) with
    | some v => if v < U64 then some v else none
    | none => none

/-- The handlers' `0x` strip: `if len(v) > 2 && v[:2] == "0x"`. -/
def stripHexMarker (cs : List Char) : List Char :=
  match cs with
  | '0' :: 'x' :: rest => if rest.isEmpty then cs else rest
  | _ => cs

/-- A JSON-RPC parameter as the unsubscribe handlers see it after
`encoding/json` decoding: a string, a number (JSON numbers decode to
`float64`; subscription ids are integral, modelled as `Nat`), or any
other shape. -/
inductive RpcParam where
  | str (s : String)
  | num (n : Nat)
  | other
deriving Repr, DecidableEq

/-- `eth_unsubscribe`'s id decoding (`handleEVMRequest`): strings are
tried as decimal first, then — after stripping a `0x` prefix — as hex;
numbers are truncated to `uint64`; other shapes are invalid. -/
def parseEVMSubscriptionId (p : RpcParam) : Option Nat :=
  match p with
  | .str v =>
    match parseUint 10 v with
    | some id => some id
    | none => parseUint 16 (String.mk (stripHexMarker v.toList))
  | .num n => some n
  | .other => none

/-- `slotUnsubscribe`/`rootUnsubscribe`'s id decoding
(`handleSolanaRequest`): strings are parsed as decimal only; numbers are
truncated to `uint64`; other shapes are invalid. -/
def parseSolanaSubscriptionId (p : RpcParam) : Option Nat :=
  match p with
  | .str v => parseUint 10 v
  | .num n => some n
  | .other => none

/-- `SubscriptionManager.Unsubscribe(id)` over a registry snapshot:
error (`none`) when the id is absent, else remove it. -/
def unsubscribe (subs : List Subscription) (id : Nat) :
    Option (List Subscription) :=
  if subs.any (fun s => s.id == id) then
    some (subs.filter (fun s => ¬ s.id = id))
  else none

/-- C9 counterexample: for the existing subscription id 1, the EVM
unsubscribe handler accepts `"1"`, `"0x1"` and the numeric `1`, all
resolving to internal id 1, but the Solana handler rejects the
`"0x"`-hex encoding with an invalid-id error while accepting the other
two — the two families do not both accept all three encodings. -/
theorem c9_solana_hex_id_rejected :
    parseSolanaSubscriptionId (.str "0x1") = none ∧
    parseSolanaSubscriptionId (.str "1") = some 1 ∧
    parseSolanaSubscriptionId (.num 1) = some 1 ∧
    parseEVMSubscriptionId (.str "0x1") = some 1 ∧
    parseEVMSubscriptionId (.str "1") = some 1 ∧
    parseEVMSubscriptionId (.num 1) = some 1 ∧
    unsubscribe [⟨1, "501", "slotNotification"⟩] 1 = some [] := by
  refine ⟨?_, ?_, ?_, ?_, ?_, ?_, ?_⟩ <;> decide

/-- `handleSolanaRequest`'s `getSlot` branch: the result is the current
slot number, unconditionally — the request's params (in particular a
`{commitment: ...}` object) are never read. -/
def handleGetSlot (node : SolanaNode) (commitment : Option String) : Nat :=
  node.slotNumber

/-- C7, code evaluated at the failing inputs: with the node at slot 2,
`getSlot` returns 2 for commitment `"finalized"`, `"confirmed"` and for
no params alike — the commitment offsets 3/1/0 claimed by the spec (and
asserted by the repository's own `TestSolanaGetSlotWithCommitment` /
`TestSolanaGetSlotWithLowSlotNumber` tests) are not implemented. -/
theorem c7_getslot_ignores_commitment :
    handleGetSlot { initSolana with slotNumber := 2 } (some "finalized") = 2 ∧
    handleGetSlot { initSolana with slotNumber := 2 } (some "confirmed") = 2 ∧
    handleGetSlot { initSolana with slotNumber := 2 } none = 2 ∧
    (2 : Nat) ≠ 0 ∧ (2 : Nat) ≠ 1 :=
  ⟨rfl, rfl, rfl, by decide, by decide⟩

/-- A block-number parameter after the `0x` strip, parsed as hex
(`strconv.ParseUint(blockParam, 16, 64)`). -/
def parseBlockNumberParam (s : String) : Option Nat :=
  parseUint 16 (String.mk (stripHexMarker s.toList))

/-- The block-tag resolution shared by `eth_getLogs`'s `fromBlock` and
`toBlock` switches: `latest`/`pending` → current height, `safe`,
`finalized`, `earliest` → 0, else hex parse (invalid → `none`, which the
handler turns into a `-32602` response). -/
def resolveBlockString (c : EVMChain) (s : String) : Option Nat :=
  if s = "latest" ∨ s = "pending" then some c.blockNumber
  else if s = "safe" then some c.safeBlockNumber
  else if s = "finalized" then some c.finalizedBlockNumber
  else if s = "earliest" then some 0
  else parseBlockNumberParam s

/-- `fromBlock` resolution: an absent field defaults to 0 (earliest). -/
def resolveFromParam (c : EVMChain) (p : Option String) : Option Nat :=
  match p with
  | none => some 0
  | some s => resolveBlockString c s

/-- `toBlock` resolution: an absent field defaults to the current
height (latest). -/
def resolveToParam (c : EVMChain) (p : Option String) : Option Nat :=
  match p with
  | none => some c.blockNumber
  | some s => resolveBlockString c s

/-- Outcome of the `eth_getLogs` branch of `handleEVMRequest`. -/
inductive GetLogsResult where
  | invalidParams
  | rangeError
  | emptyLogs
deriving Repr, DecidableEq

/-- The `eth_getLogs` branch: resolve both bounds (a bad value is a
`-32602` invalid-params error), then return `-32000`
`"invalid block range params"` when `toBlock` exceeds the current height
or `fromBlock` exceeds `toBlock`, else an empty logs array. -/
def ethGetLogs (c : EVMChain) (fromBlockParam toBlockParam : Option String) :
    GetLogsResult :=
  match resolveFromParam c fromBlockParam, resolveToParam c toBlockParam with
  | some fromBlock, some toBlock =>
    if toBlock > c.blockNumber then .rangeError
    else if fromBlock > toBlock then .rangeError
    else .emptyLogs
  | _, _ => .invalidParams

/-- C8: for every well-formed filter (both bounds resolve), the handler
returns the `-32000` block-range error exactly when the resolved
`toBlock` exceeds the current height or the resolved `fromBlock` exceeds
the resolved `toBlock`, and the empty-array result exactly otherwise. -/
theorem c8_getlogs_range_validation (c : EVMChain) (fp tp : Option String)
    (f t : Nat) (hf : resolveFromParam c fp = some f)
    (ht : resolveToParam c tp = some t) :
    (ethGetLogs c fp tp = .rangeError ↔ (t > c.blockNumber ∨ f > t)) ∧
    (ethGetLogs c fp tp = .emptyLogs ↔ ¬ (t > c.blockNumber ∨ f > t)) := by
  unfold ethGetLogs
  rw [hf, ht]
  dsimp only
  by_cases h1 : t > c.blockNumber
  · rw [if_pos h1]
    constructor
    · simp [h1]
    · constructor
      · intro h; cases h
      · intro h; exact absurd (Or.inl h1) h
  · rw [if_neg h1]
    by_cases h2 : f > t
    · rw [if_pos h2]
      constructor
      · simp [h2]
      · constructor
        · intro h; cases h
        · intro h; exact absurd (Or.inr h2) h
    · rw [if_neg h2]
      constructor
      · constructor
        · intro h; cases h
        · intro h; rcases h with h | h; exact absurd h h1; exact absurd h h2
      · simp [h1, h2]

/-- The ethereum chain at height 100 (the spec's example state). -/
def ethereumAt100 : EVMChain := { initEthereum with blockNumber := 100 }

/-- Witness for C8 at the spec's example: at height 100,
`fromBlock="0x1", toBlock="0xFF"` is the range error (255 > 100), and
the same filter with `toBlock="latest"` is the empty result. -/
theorem c8_getlogs_range_validation_witness :
    ethGetLogs ethereumAt100 (some "0x1") (some "0xFF") =
      GetLogsResult.rangeError ∧
    ethGetLogs ethereumAt100 (some "0x1") (some "latest") =
      GetLogsResult.emptyLogs := by
  constructor
  · exact (c8_getlogs_range_validation ethereumAt100 (some "0x1")
      (some "0xFF") 1 255 (by decide) (by decide)).1.2 (by decide)
  · exact (c8_getlogs_range_validation ethereumAt100 (some "0x1")
      (some "latest") 1 100 (by decide) (by decide)).2.2 (by decide)

/-- C10: an `eth_getLogs` filter that omits `fromBlock` defaults it to 0
(earliest) and one that omits `toBlock` defaults it to the current
height, so the empty filter object never hits the `-32000` block-range
error and yields the empty-array result. -/
theorem c10_getlogs_defaults (c : EVMChain) :
    resolveFromParam c none = some 0 ∧
    resolveToParam c none = some c.blockNumber ∧
    ethGetLogs c none none = GetLogsResult.emptyLogs := by
  refine ⟨rfl, rfl, ?_⟩
  unfold ethGetLogs resolveFromParam resolveToParam
  simp

/-- Digit-to-character map for the reference decimal/hex renderings of
an id (`0-9`, then lowercase `a-f`). -/
def natToDigitChar (d : Nat) : Char :=
  if d < 10 then Char.ofNat (48 + d) else Char.ofNat (87 + d)

/-- Little-endian base-`base` digits of `n`, computed with explicit fuel
(structurally recursive, hence kernel-computable). -/
def natToDigitsRevAux (base : Nat) : Nat → Nat → List Nat
  | 0, _ => []
  | fuel + 1, n => if n = 0 then [] else n % base :: natToDigitsRevAux base fuel (n / base)

/-- The canonical base-`base` rendering of `n` (no prefix, no leading
zeros, lowercase): the wire encoding a client uses for an id. -/
def natToString (base n : Nat) : String :=
  if n = 0 then "0"
  else String.mk (((natToDigitsRevAux base n n).map natToDigitChar).reverse)

lemma natToDigitsRevAux_eq_digits (base : Nat) (hb : 2 ≤ base)
    (fuel n : Nat) (hfn : n ≤ fuel) :
    natToDigitsRevAux base fuel n = Nat.digits base n := by
  induction fuel generalizing n with
  | zero =>
    have : n = 0 := by omega
    subst this
    simp [natToDigitsRevAux]
  | succ f ih =>
    by_cases hn : n = 0
    · subst hn
      simp [natToDigitsRevAux]
    · rw [natToDigitsRevAux, if_neg hn,
        ih (n / base) (by
          have := Nat.div_lt_self (Nat.pos_of_ne_zero hn) (by omega : 1 < base)
          omega),
        ← Nat.digits_def' (by omega : 1 < base) (Nat.pos_of_ne_zero hn)]

lemma digitVal_natToDigitChar (d : Nat) (hd : d < 16) :
    digitVal (natToDigitChar d) = some d := by
  interval_cases d <;> decide

lemma parseLoop_digits (base : Nat) (hb : base ≤ 16) (ds : List Nat)
    (hds : ∀ d ∈ ds, d < base) (acc : Nat) :
    parseLoop base acc (ds.map natToDigitChar) =
      some (ds.foldl (fun a d => a * base + d) acc) := by
  induction ds generalizing acc with
  | nil => rfl
  | cons d rest ih =>
    have hd : d < base := hds d (List.mem_cons_self d rest)
    rw [List.map_cons, parseLoop,
      digitVal_natToDigitChar d (lt_of_lt_of_le hd hb)]
    dsimp only
    rw [if_pos hd, ih (fun x hx => hds x (List.mem_cons_of_mem d hx))
      (acc * base + d)]
    rfl

lemma foldl_mul_add (base : Nat) (ds : List Nat) (acc : Nat) :
    ds.foldl (fun a d => a * base + d) acc =
      acc * base ^ ds.length + Nat.ofDigits base ds.reverse := by
  induction ds generalizing acc with
  | nil => simp
  | cons d rest ih =>
    rw [List.foldl_cons, ih, List.reverse_cons, Nat.ofDigits_append,
      Nat.ofDigits_singleton]
    simp only [List.length_cons, List.length_reverse, pow_succ]
    ring

lemma parseUint_of_ne_nil (base : Nat) (s : String) (h : s.toList ≠ []) :
    parseUint base s =
      match parseLoop base 0 s.toList with
      | some v => if v < U64 then some v else none
      | none => none := by
  unfold parseUint
  rcases hl : s.toList with _ | ⟨c, cs⟩
  · exact absurd hl h
  · rfl

lemma natToString_toList_ne_nil (base n : Nat) (hb : 2 ≤ base) :
    (natToString base n).toList ≠ [] := by
  unfold natToString
  split
  · decide
  · rename_i hn
    show (((natToDigitsRevAux base n n).map natToDigitChar).reverse) ≠ []
    rw [natToDigitsRevAux_eq_digits base hb n n le_rfl]
    simp [Nat.digits_ne_nil_iff_ne_zero.2 hn]

/-- Round trip: Go's `ParseUint` recovers `n` from its canonical
base-`base` rendering, for the bases the handlers use. -/
lemma parseUint_natToString (base n : Nat) (h2 : 2 ≤ base) (hb : base ≤ 16)
    (hn : n < U64) : parseUint base (natToString base n) = some n := by
  by_cases h0 : n = 0
  · subst h0
    have hz : natToString base 0 = "0" := by simp [natToString]
    rw [hz, parseUint_of_ne_nil base "0" (by decide)]
    have hd : digitVal '0' = some 0 := by decide
    have : parseLoop base 0 ("0".toList) = some 0 := by
      show parseLoop base 0 ['0'] = some 0
      rw [parseLoop, hd]
      dsimp only
      rw [if_pos (by omega : 0 < base)]
      simp [parseLoop]
    rw [this]
    exact if_pos hn
  · have hstr : natToString base n =
        String.mk (((natToDigitsRevAux base n n).map natToDigitChar).reverse) := by
      rw [natToString, if_neg h0]
    have hdig : natToDigitsRevAux base n n = Nat.digits base n :=
      natToDigitsRevAux_eq_digits base h2 n n le_rfl
    rw [hstr, hdig, parseUint_of_ne_nil base _ (by
      show (((Nat.digits base n).map natToDigitChar).reverse) ≠ []
      simp [Nat.digits_ne_nil_iff_ne_zero.2 h0])]
    have htl : (String.mk (((Nat.digits base n).map natToDigitChar).reverse)).toList
        = ((Nat.digits base n).reverse).map natToDigitChar := by
      show ((Nat.digits base n).map natToDigitChar).reverse = _
      rw [List.map_reverse]
    rw [htl, parseLoop_digits base hb _ (fun d hd =>
        Nat.digits_lt_base (by omega) (List.mem_reverse.1 hd)) 0,
      foldl_mul_add]
    simp only [List.reverse_reverse, Nat.ofDigits_digits, zero_mul, zero_add]
    exact if_pos hn

/-- A `0x`-prefixed string never parses as decimal: `x` is not a base-10
digit. -/
lemma parseUint_ten_leading_0x (t : String) :
    parseUint 10 ("0x" ++ t) = none := by
  have h : ("0x" ++ t).toList = '0' :: 'x' :: t.toList := rfl
  rw [parseUint_of_ne_nil 10 _ (by rw [h]; simp), h]
  have h0 : digitVal '0' = some 0 := by decide
  have hx : digitVal 'x' = some 33 := by decide
  rw [parseLoop, h0]
  dsimp only
  rw [if_pos (by norm_num), parseLoop, hx]
  dsimp only
  rw [if_neg (by norm_num)]

lemma stripHexMarker_0x (cs : List Char) (h : cs ≠ []) :
    stripHexMarker ('0' :: 'x' :: cs) = cs := by
  simp [stripHexMarker, h]

/-- C9 amended: both unsubscribe handlers resolve the decimal-string and
numeric encodings of an id to the same internal id, and the EVM handler
additionally accepts the `"0x"`-hex encoding; the Solana handler rejects
the `"0x"`-hex encoding (`-32602`), contrary to the claim. -/
theorem c9_unsubscribe_id_encodings (n : Nat) (hn : n < U64) :
    parseEVMSubscriptionId (.str (natToString 10 n)) = some n ∧
    parseEVMSubscriptionId (.str ("0x" ++ natToString 16 n)) = some n ∧
    parseEVMSubscriptionId (.num n) = some n ∧
    parseSolanaSubscriptionId (.str (natToString 10 n)) = some n ∧
    parseSolanaSubscriptionId (.num n) = some n ∧
    parseSolanaSubscriptionId (.str ("0x" ++ natToString 16 n)) = none := by
  have hdec := parseUint_natToString 10 n (by norm_num) (by norm_num) hn
  have hhex := parseUint_natToString 16 n (by norm_num) (by norm_num) hn
  have hpref := parseUint_ten_leading_0x (natToString 16 n)
  refine ⟨?_, ?_, rfl, ?_, rfl, ?_⟩
  · simp only [parseEVMSubscriptionId, hdec]
  · simp only [parseEVMSubscriptionId, hpref]
    have htl : ("0x" ++ natToString 16 n).toList =
        '0' :: 'x' :: (natToString 16 n).toList := rfl
    rw [htl, stripHexMarker_0x _ (natToString_toList_ne_nil 16 n (by norm_num))]
    exact hhex
  · simp only [parseSolanaSubscriptionId]
    exact hdec
  · simp only [parseSolanaSubscriptionId]
    exact hpref

/-- Witness for C9's amended theorem at id 10 (decimal `"10"`, hex
`"0xa"`). -/
theorem c9_unsubscribe_id_encodings_witness :
    parseEVMSubscriptionId (.str "10") = some 10 ∧
    parseEVMSubscriptionId (.str "0xa") = some 10 ∧
    parseEVMSubscriptionId (.num 10) = some 10 ∧
    parseSolanaSubscriptionId (.str "10") = some 10 ∧
    parseSolanaSubscriptionId (.num 10) = some 10 ∧
    parseSolanaSubscriptionId (.str "0xa") = none := by
  have h := c9_unsubscribe_id_encodings 10 (by norm_num [U64])
  have e1 : natToString 10 10 = "10" := by decide
  have e2 : "0x" ++ natToString 16 10 = "0xa" := by decide
  rw [e1, e2] at h
  exact h

end RpcSim
